import Mathlib

/-!
Verification of the Snipchat client-side synchronization logic.

Each definition below is a shallow embedding of a function of the source
repository (the TypeScript React client).  Timestamps are modelled as `Nat`
milliseconds since the epoch (the code compares `new Date(s).getTime()`
values, and the backend orders ISO timestamp strings, which agrees with
chronological order).  Ids are `String`s.  Fallible backend requests are
modelled as `Except String` values supplied as inputs, since the network
outcome is external nondeterminism.
-/

/-- Profile row (`profiles` relation) as selected by the client. -/
structure Profile where
  id : String
  first_name : Option String
  last_name : Option String
  avatar_url : Option String
deriving Repr, DecidableEq

/-- One element of `conversation_participants` joined with its profile. -/
structure ParticipantEntry where
  user_id : String
  profiles : Profile
deriving Repr, DecidableEq

/-- Row of the `message_receipts` relation. -/
structure MessageReceipt where
  message_id : String
  user_id : String
  seen_at : Nat
deriving Repr, DecidableEq

/-- Message as held by the hooks that join receipts (`SupabaseMessage` in
`use-chat-messages.ts`).  `message_receipts` is optional in the source type;
`none` models an absent field. -/
structure SupabaseMessage where
  id : String
  conversation_id : String
  sender_id : String
  content : String
  created_at : Nat
  profiles : Option Profile
  message_receipts : Option (List MessageReceipt)
deriving Repr, DecidableEq

/-- Conversation as held by `ChatApp` after merging the latest-message
summary (`SupabaseConversation` in `ChatApp.tsx`). -/
structure SupabaseConversation where
  id : String
  name : Option String
  created_at : Nat
  conversation_participants : List ParticipantEntry
  latest_message_content : Option String
  latest_message_sender_id : Option String
  latest_message_created_at : Option Nat
deriving Repr, DecidableEq

/-- Raw conversation row as returned by the `conversation_participants`
join query in `fetchConversations`, before the latest-message merge. -/
structure RawConversationRow where
  id : String
  name : Option String
  created_at : Nat
  conversation_participants : List ParticipantEntry
deriving Repr, DecidableEq

/-- Row of the `conversation_last_message` summary view. -/
structure LatestMessageRow where
  conversation_id : String
  latest_message_content : Option String
  latest_message_sender_id : Option String
  latest_message_created_at : Option Nat
deriving Repr, DecidableEq

/-! ## Conversation list synchronizer (`ChatApp.tsx` `fetchConversations`) -/

/-- Merge step of `fetchConversations`: look up the conversation's row in
`latestMessagesMap` and copy the three latest-message fields, `null` when
the view has no row for this conversation. -/
def mergeLatestMessage (rows : List LatestMessageRow) (conv : RawConversationRow) :
    SupabaseConversation :=
  let lastMessage := rows.find? (fun r => r.conversation_id == conv.id)
  { id := conv.id
    name := conv.name
    created_at := conv.created_at
    conversation_participants := conv.conversation_participants
    latest_message_content := lastMessage.bind (fun r => r.latest_message_content)
    latest_message_sender_id := lastMessage.bind (fun r => r.latest_message_sender_id)
    latest_message_created_at := lastMessage.bind (fun r => r.latest_message_created_at) }

/-- Sort key used by the comparator in `fetchConversations`:
`new Date(c.latest_message_created_at).getTime()` with `0` (the epoch) when
the conversation has no latest message. -/
def conversationSortKey (c : SupabaseConversation) : Nat :=
  c.latest_message_created_at.getD 0

/-- The processed, merged and sorted conversation list produced by
`fetchConversations` on the success path.  The JS comparator
`dateB - dateA` sorts descending by `conversationSortKey`. -/
def fetchConversationsResult (raw : List RawConversationRow) (rows : List LatestMessageRow) :
    List SupabaseConversation :=
  (raw.map (mergeLatestMessage rows)).insertionSort
    (fun a b => conversationSortKey b ≤ conversationSortKey a)

/-! ## Selection fallback (`ChatApp.tsx`) -/

/-- Selection update performed by `fetchConversations` after setting the
list: select the first conversation when the current selection is absent or
empty, clear the selection when the list is empty, otherwise keep it. -/
def selectionAfterRefresh (processedConversations : List SupabaseConversation)
    (selectedConversationId : Option String) : Option String :=
  if processedConversations.length > 0 &&
      (selectedConversationId.isNone ||
        !(processedConversations.any (fun c => some c.id == selectedConversationId))) then
    processedConversations.head?.map (fun c => c.id)
  else if processedConversations.length == 0 then
    none
  else
    selectedConversationId

/-- Result state of `handleConversationDeleted`. -/
structure DeletionOutcome where
  conversations : List SupabaseConversation
  selectedConversationId : Option String
deriving Repr, DecidableEq

/-- `handleConversationDeleted` in `ChatApp.tsx`: drop the deleted
conversation from the list and, when it was the selected one, fall back to
the first remaining conversation or to `null`. -/
def handleConversationDeleted (prev : List SupabaseConversation)
    (selectedConversationId : Option String) (deletedConversationId : String) :
    DeletionOutcome :=
  let updatedConversations := prev.filter (fun conv => conv.id != deletedConversationId)
  if selectedConversationId == some deletedConversationId then
    { conversations := updatedConversations
      selectedConversationId :=
        if updatedConversations.length > 0 then
          updatedConversations.head?.map (fun c => c.id)
        else none }
  else
    { conversations := updatedConversations
      selectedConversationId := selectedConversationId }

/-! ## Message send (`ChatApp.tsx` `handleSendMessage`,
`ChatMessageArea.tsx` `handleSend`) -/

/-- Result of a `handleSendMessage` call: the `messages` relation and
whether an insert request was issued. -/
structure SendOutcome where
  messagesRelation : List SupabaseMessage
  insertIssued : Bool
deriving Repr, DecidableEq

/-- `handleSendMessage` in `ChatApp.tsx`: guard
`if (!user || !selectedConversationId || !text.trim()) return;` and
otherwise insert one row into `messages` (the backend fills in id and
created_at, supplied here as parameters). -/
def handleSendMessage (user : Option String) (selectedConversationId : Option String)
    (text : String) (rel : List SupabaseMessage) (newId : String) (now : Nat) : SendOutcome :=
  match user, selectedConversationId with
  | some uid, some cid =>
    if text.trim.isEmpty then { messagesRelation := rel, insertIssued := false }
    else
      { messagesRelation := rel ++
          [{ id := newId, conversation_id := cid, sender_id := uid, content := text,
             created_at := now, profiles := none, message_receipts := none }]
        insertIssued := true }
  | _, _ => { messagesRelation := rel, insertIssued := false }

/-- `handleSend` in `ChatMessageArea.tsx`: call `onSendMessage` only when
the input trims to a non-empty string; `some` carries the forwarded text. -/
def handleSend (newMessageContent : String) : Option String :=
  if newMessageContent.trim.isEmpty then none else some newMessageContent

/-! ## Message synchronizer (`ChatMessageArea.tsx` INSERT handler and
`use-chat-messages.ts` `fetchMessages`) -/

/-- Raw row carried by a `messages` INSERT change-feed payload. -/
structure RawMessage where
  id : String
  conversation_id : String
  sender_id : String
  content : String
  created_at : Nat
deriving Repr, DecidableEq

/-- Message as displayed by `ChatMessageArea.tsx` (raw columns plus the
resolved sender profile). -/
structure DisplayMessage where
  id : String
  conversation_id : String
  sender_id : String
  content : String
  created_at : Nat
  profiles : Option Profile
deriving Repr, DecidableEq

/-- The `messages` INSERT subscription handler of `ChatMessageArea.tsx`:
resolve the sender profile from the conversation's participant list and
append the new message to the end of the local list. -/
def chatAreaInsertHandler (conversation_participants : List ParticipantEntry)
    (prev : List DisplayMessage) (rawNewMessage : RawMessage) : List DisplayMessage :=
  let senderProfile :=
    (conversation_participants.find? (fun p => p.user_id == rawNewMessage.sender_id)).map
      (fun p => p.profiles)
  prev ++ [{ id := rawNewMessage.id, conversation_id := rawNewMessage.conversation_id,
             sender_id := rawNewMessage.sender_id, content := rawNewMessage.content,
             created_at := rawNewMessage.created_at, profiles := senderProfile }]

/-- Local message list after the initial load followed by a sequence of
INSERT notifications, each handled by `chatAreaInsertHandler`, in arrival
order. -/
def reconcileInserts (conversation_participants : List ParticipantEntry)
    (initial : List DisplayMessage) (arrivals : List RawMessage) : List DisplayMessage :=
  arrivals.foldl (chatAreaInsertHandler conversation_participants) initial

/-- The order the backend query `order('created_at', ascending: true)`
returns, and the order the spec requires after reconciliation. -/
def sortMessagesByCreatedAt (l : List DisplayMessage) : List DisplayMessage :=
  l.insertionSort (fun a b => a.created_at ≤ b.created_at)

/-! ## Read receipts (`use-chat-messages.ts`) -/

/-- Does the receipt relation already hold a receipt for this
(message, user) pair? -/
def hasReceipt (db : List MessageReceipt) (messageId userId : String) : Bool :=
  db.any (fun r => r.message_id == messageId && r.user_id == userId)

/-- Modelled from the spec: the backend `message_receipts` relation
(declared outside this repository) has a unique constraint on
`(message_id, user_id)`; a multi-row insert is atomic, and a duplicate key
makes the whole request fail with error code `23505` (unique_violation),
leaving the relation unchanged. -/
def insertReceiptRows (db : List MessageReceipt) (rows : List MessageReceipt) :
    Except String (List MessageReceipt) :=
  if rows.any (fun r => hasReceipt db r.message_id r.user_id) then Except.error "23505"
  else Except.ok (db ++ rows)

/-- Outcome of `markMessagesAsSeen`: resulting receipt relation, whether an
error notification was shown to the user (`showError`), and whether an
error was written to the console log. -/
structure ReceiptWriteOutcome where
  db : List MessageReceipt
  errorSurfacedToUser : Bool
  errorLogged : Bool
deriving Repr, DecidableEq

/-- `markMessagesAsSeen` in `use-chat-messages.ts`: no-op without a user or
with no message ids; otherwise one batched insert of
`(message_id, user_id)` rows.  The code never calls `showError` here, and
logs the failure only when `error.code !== '23505'`. -/
def markMessagesAsSeen (currentUser : Option String) (messageIds : List String)
    (db : List MessageReceipt) (now : Nat) : ReceiptWriteOutcome :=
  match currentUser with
  | none => { db := db, errorSurfacedToUser := false, errorLogged := false }
  | some uid =>
    if messageIds.length == 0 then
      { db := db, errorSurfacedToUser := false, errorLogged := false }
    else
      let receiptsToInsert := messageIds.map (fun messageId =>
        { message_id := messageId, user_id := uid, seen_at := now : MessageReceipt })
      match insertReceiptRows db receiptsToInsert with
      | Except.error code =>
        { db := db, errorSurfacedToUser := false, errorLogged := code != "23505" }
      | Except.ok db2 =>
        { db := db2, errorSurfacedToUser := false, errorLogged := false }

/-- The `unseenMessageIds` computation in `fetchMessages`: ids of fetched
messages whose sender differs from the current user and which carry no
receipt by the current user (`!msg.message_receipts?.some(...)`, so an
absent receipts field counts as unseen). -/
def unseenMessageIds (currentUserId : String) (fetchedMessages : List SupabaseMessage) :
    List String :=
  (fetchedMessages.filter (fun msg => msg.sender_id != currentUserId &&
      !((msg.message_receipts.getD []).any (fun r => r.user_id == currentUserId)))).map
    (fun msg => msg.id)

/-- The single batched receipt write issued after a successful
`fetchMessages`: `markMessagesAsSeen(unseenMessageIds)` is called once,
and only when the set is non-empty; `none` models "no insert issued". -/
def receiptInsertBatch (currentUserId : String) (fetchedMessages : List SupabaseMessage)
    (now : Nat) : Option (List MessageReceipt) :=
  let unseen := unseenMessageIds currentUserId fetchedMessages
  if unseen.length > 0 then
    some (unseen.map (fun messageId =>
      { message_id := messageId, user_id := currentUserId, seen_at := now }))
  else none

/-! ## Seen-by-all indicator (`MessageBubble.tsx`) -/

/-- `isMessageSeenByAllOthers` in `MessageBubble.tsx`: false unless the
message is the current user's own and the receipts field is present; false
when there are no other participants; otherwise every other participant
must have a receipt on the message. -/
def isMessageSeenByAllOthers (currentUserId : String)
    (conversation_participants : List ParticipantEntry) (msg : SupabaseMessage) : Bool :=
  if msg.sender_id != currentUserId then false
  else
    match msg.message_receipts with
    | none => false
    | some receipts =>
      let otherParticipants :=
        conversation_participants.filter (fun p => p.user_id != currentUserId)
      if otherParticipants.length == 0 then false
      else otherParticipants.all (fun otherP =>
        receipts.any (fun receipt => receipt.user_id == otherP.user_id))

/-- Stated from the claim's words, for comparison with the code: "seen by
all" is true iff the message is authored by the current user and every
participant other than the sender has a receipt on it, vacuously true when
the set of other participants is empty. -/
def seenByAllClaim (currentUserId : String)
    (conversation_participants : List ParticipantEntry) (msg : SupabaseMessage) : Bool :=
  msg.sender_id == currentUserId &&
    (conversation_participants.filter (fun p => p.user_id != currentUserId)).all
      (fun p => (msg.message_receipts.getD []).any (fun r => r.user_id == p.user_id))

/-! ## Typing status -/

/-- Staleness window shared by all typing-status readers. -/
def TYPING_INDICATOR_TIMEOUT_MS : Nat := 3000

/-- Change-feed event kind carried by a typing_status payload. -/
inductive TypingEventType
  | insertEvent
  | updateEvent
  | deleteEvent
deriving Repr, DecidableEq

/-- Row carried by a typing_status change-feed payload. -/
structure TypingRecord where
  user_id : String
  last_typed_at : Nat
deriving Repr, DecidableEq

/-- The typing_status subscription handler of `ChatMessageArea.tsx`:
ignore the current user's own row, resolve the profile from the
participant list, remove the user on DELETE, and otherwise add the user to
`typingUsers` (deduplicated), scheduling removal 3000 ms after *arrival*.
The row's `last_typed_at` value is never consulted. -/
def chatAreaTypingHandler (currentUserId : String)
    (conversation_participants : List ParticipantEntry)
    (typingUsers : List Profile) (eventType : TypingEventType)
    (record : TypingRecord) : List Profile :=
  if record.user_id == currentUserId then typingUsers
  else
    match (conversation_participants.find? (fun p => p.user_id == record.user_id)).map
        (fun p => p.profiles) with
    | none => typingUsers
    | some userProfile =>
      match eventType with
      | TypingEventType.deleteEvent =>
        typingUsers.filter (fun u => u.id != record.user_id)
      | _ =>
        if typingUsers.any (fun u => u.id == userProfile.id) then typingUsers
        else typingUsers ++ [userProfile]

/-- Typing-status row joined with its profile, as fetched by
`fetchTypingUsers` in `useTypingStatus`. -/
structure TypingStatusRow where
  user_id : String
  last_typed_at : Nat
  profiles : Profile
deriving Repr, DecidableEq

/-- The `fetchTypingUsers` reader of `useTypingStatus`: the query excludes
the current user's own row (`neq('user_id', ...)`), and the client keeps
only rows with `now - lastTyped < TYPING_INDICATOR_TIMEOUT_MS`. -/
def fetchTypingUsersFilter (currentUserId : String) (now : Nat)
    (rows : List TypingStatusRow) : List TypingStatusRow :=
  (rows.filter (fun ts => ts.user_id != currentUserId)).filter
    (fun ts => now - ts.last_typed_at < TYPING_INDICATOR_TIMEOUT_MS)

/-! ## Call signaling (`CallProvider` `startCall`) -/

/-- Call status values of the `calls` relation. -/
inductive CallStatus
  | ringing
  | active
  | ended
  | declined
deriving Repr, DecidableEq

/-- Row of the `calls` relation. -/
structure CallRow where
  id : String
  caller_id : String
  conversation_id : String
  status : CallStatus
  call_url : Option String
  created_at : Nat
deriving Repr, DecidableEq

/-- The external-conferencing URL minted by `startCall`:
`https://meet.jit.si/Snipchat-${conversationId}-${Date.now()}`. -/
def mintCallUrl (conversationId : String) (now : Nat) : String :=
  "https://meet.jit.si/Snipchat-" ++ conversationId ++ "-" ++ toString now

/-- Outcome of a `startCall` invocation. -/
structure StartCallOutcome where
  db : List CallRow
  errorSurfaced : Option String
  activeCall : Option CallRow
deriving Repr, DecidableEq

/-- The pre-check query of `startCall`: rows of the same conversation with
status in `['ringing', 'active']`. -/
def nonTerminalCallExists (db : List CallRow) (conversationId : String) : Bool :=
  (db.filter (fun c => c.conversation_id == conversationId &&
    (c.status == CallStatus.ringing || c.status == CallStatus.active))).length > 0

/-- `startCall` in the call provider: refuse without a user; surface an
error when the pre-check query fails (`checkSucceeds = false`) or finds a
non-terminal call; otherwise insert one `ringing` row carrying a freshly
minted `call_url` (the insert itself may also fail, `insertSucceeds`). -/
def startCall (currentUser : Option String) (db : List CallRow) (conversationId : String)
    (now : Nat) (newId : String) (checkSucceeds insertSucceeds : Bool) : StartCallOutcome :=
  match currentUser with
  | none =>
    { db := db, errorSurfaced := some "You must be logged in to start a call.",
      activeCall := none }
  | some uid =>
    if !checkSucceeds then
      { db := db, errorSurfaced := some "Failed to check for existing calls.",
        activeCall := none }
    else if nonTerminalCallExists db conversationId then
      { db := db,
        errorSurfaced := some "A call is already active or ringing in this conversation.",
        activeCall := none }
    else if insertSucceeds then
      let newCall : CallRow :=
        { id := newId, caller_id := uid, conversation_id := conversationId,
          status := CallStatus.ringing, call_url := some (mintCallUrl conversationId now),
          created_at := now }
      { db := db ++ [newCall], errorSurfaced := none, activeCall := some newCall }
    else
      { db := db, errorSurfaced := some "Failed to start call.", activeCall := none }

/-! ## Conversation fetch error handling (`ChatApp.tsx` vs the
`fetchAndSetConversations` variant) -/

/-- Conversation list state together with whether `showError` fired. -/
structure ConversationFetchOutcome where
  conversations : List SupabaseConversation
  errorSurfaced : Bool
deriving Repr, DecidableEq

/-- `fetchConversations` in `ChatApp.tsx`: on either query error it shows
an error and returns early, leaving the previous list state untouched. -/
def fetchConversationsChatApp (user : Option String) (prev : List SupabaseConversation)
    (rawResult : Except String (List RawConversationRow))
    (latestResult : Except String (List LatestMessageRow)) : ConversationFetchOutcome :=
  match user with
  | none => { conversations := prev, errorSurfaced := false }
  | some _ =>
    match rawResult with
    | Except.error _ => { conversations := prev, errorSurfaced := true }
    | Except.ok raw =>
      match latestResult with
      | Except.error _ => { conversations := prev, errorSurfaced := true }
      | Except.ok rows =>
        { conversations := fetchConversationsResult raw rows, errorSurfaced := false }

/-- `fetchAndSetConversations` in the other `ChatApp` variant: without a
user it clears the list; on a conversations-query error it shows an error
and *clears the list* (`setConversations([])`); on a latest-messages error
it shows an error and continues with an empty summary map, overwriting
every latest-message field with null. -/
def fetchAndSetConversations (user : Option String) (_prev : List SupabaseConversation)
    (rawResult : Except String (List RawConversationRow))
    (latestResult : Except String (List LatestMessageRow)) : ConversationFetchOutcome :=
  match user with
  | none => { conversations := [], errorSurfaced := false }
  | some _ =>
    match rawResult with
    | Except.error _ => { conversations := [], errorSurfaced := true }
    | Except.ok raw =>
      match latestResult with
      | Except.error _ =>
        { conversations := fetchConversationsResult raw [], errorSurfaced := true }
      | Except.ok rows =>
        { conversations := fetchConversationsResult raw rows, errorSurfaced := false }

/-! ## Concrete fixtures shared by witnesses and counterexamples -/

/-- Fixture profile. -/
def aliceProfile : Profile :=
  { id := "alice", first_name := some "Alice", last_name := none, avatar_url := none }

/-- Fixture profile. -/
def bobProfile : Profile :=
  { id := "bob", first_name := some "Bob", last_name := none, avatar_url := none }

/-- Fixture participant list of a two-person conversation. -/
def fixtureParticipants : List ParticipantEntry :=
  [{ user_id := "alice", profiles := aliceProfile },
   { user_id := "bob", profiles := bobProfile }]

/-- Alice's message, created at t = 2, whose INSERT is delivered first. -/
def c1LateMessage : RawMessage :=
  { id := "m1", conversation_id := "conv1", sender_id := "alice", content := "hi",
    created_at := 2 }

/-- Bob's message, created earlier at t = 1, whose INSERT is delivered second. -/
def c1EarlyMessage : RawMessage :=
  { id := "m0", conversation_id := "conv1", sender_id := "bob", content := "hello",
    created_at := 1 }

/-- Display form of `c1LateMessage` after profile resolution. -/
def c1LateDisplay : DisplayMessage :=
  { id := "m1", conversation_id := "conv1", sender_id := "alice", content := "hi",
    created_at := 2, profiles := some aliceProfile }

/-- Display form of `c1EarlyMessage` after profile resolution. -/
def c1EarlyDisplay : DisplayMessage :=
  { id := "m0", conversation_id := "conv1", sender_id := "bob", content := "hello",
    created_at := 1, profiles := some bobProfile }

/-- C1.  The spec requires the reconciled local message list to equal the
message set sorted by `created_at` ascending for any arrival order, but
the `ChatMessageArea.tsx` INSERT handler appends each notification to the
end of the list without re-sorting: when a message with an earlier
`created_at` arrives after one with a later `created_at`, the list stays
in arrival order `[m1, m0]` instead of `[m0, m1]`.  (The hook variant in
`use-chat-messages.ts` refetches with `order('created_at')` on every
notification and does satisfy the property.) -/
theorem c1_insert_handler_breaks_created_at_order :
    reconcileInserts fixtureParticipants [] [c1LateMessage, c1EarlyMessage] =
      [c1LateDisplay, c1EarlyDisplay] ∧
    sortMessagesByCreatedAt [c1LateDisplay, c1EarlyDisplay] =
      [c1EarlyDisplay, c1LateDisplay] ∧
    reconcileInserts fixtureParticipants [] [c1LateMessage, c1EarlyMessage] ≠
      sortMessagesByCreatedAt
        (reconcileInserts fixtureParticipants [] [c1LateMessage, c1EarlyMessage]) := by
  refine ⟨by decide, by decide, by decide⟩

/-- C5.  A typing_status upsert notification whose row is already stale
(`last_typed_at = 6000`, evaluated at `now = 10000`, so 4000 ms old) is
still added to `typingUsers` by the `ChatMessageArea.tsx` subscription
handler — the handler never reads `last_typed_at` — so the stale row is
rendered in the typing indicator, violating the property for that reader.
The fetch-based reader of `useTypingStatus` does filter it out. -/
theorem c5_stale_typing_row_rendered_by_subscription_reader :
    chatAreaTypingHandler "alice" fixtureParticipants []
        TypingEventType.insertEvent { user_id := "bob", last_typed_at := 6000 } =
      [bobProfile] ∧
    TYPING_INDICATOR_TIMEOUT_MS ≤ 10000 - 6000 ∧
    fetchTypingUsersFilter "alice" 10000
        [{ user_id := "bob", last_typed_at := 6000, profiles := bobProfile }] = [] := by
  refine ⟨by decide, by decide, by decide⟩

/-- Fixture conversation held in local state before a failed refresh. -/
def c7Conversation : SupabaseConversation :=
  { id := "conv1", name := none, created_at := 1,
    conversation_participants := fixtureParticipants,
    latest_message_content := some "hi", latest_message_sender_id := some "alice",
    latest_message_created_at := some 5 }

/-- C7.  On a conversations-query error, `fetchConversations` in
`ChatApp.tsx` preserves the previously loaded list, but the
`fetchAndSetConversations` variant clears it to `[]` — the data loss the
spec explicitly calls a bug to fix. -/
theorem c7_fetch_error_clears_previous_list :
    fetchConversationsChatApp (some "alice") [c7Conversation]
        (Except.error "network failure") (Except.ok []) =
      { conversations := [c7Conversation], errorSurfaced := true } ∧
    fetchAndSetConversations (some "alice") [c7Conversation]
        (Except.error "network failure") (Except.ok []) =
      { conversations := [], errorSurfaced := true } ∧
    ([c7Conversation] : List SupabaseConversation) ≠ [] := by
  refine ⟨by decide, by decide, by decide⟩

/-- C3.  For a (message, user) pair that already has a receipt, the
batched receipt insert fails atomically with the duplicate-key code
`23505`, so the receipt set is unchanged; `markMessagesAsSeen` swallows
that code (it is not even logged) and never surfaces an error to the
user. -/
theorem c3_duplicate_receipt_insert_is_idempotent
    (uid m : String) (messageIds : List String) (db : List MessageReceipt) (now : Nat)
    (hmem : m ∈ messageIds) (hdup : hasReceipt db m uid = true) :
    markMessagesAsSeen (some uid) messageIds db now =
      { db := db, errorSurfacedToUser := false, errorLogged := false } := by
  have hne : (messageIds.length == 0) = false := by
    cases messageIds with
    | nil => cases hmem
    | cons a l => rfl
  have hins : insertReceiptRows db (messageIds.map fun messageId =>
      { message_id := messageId, user_id := uid, seen_at := now }) =
      Except.error "23505" := by
    unfold insertReceiptRows
    rw [if_pos]
    exact List.any_eq_true.mpr
      ⟨{ message_id := m, user_id := uid, seen_at := now },
        List.mem_map.mpr ⟨m, hmem, rfl⟩, hdup⟩
  simp [markMessagesAsSeen, hne, hins]

/-- Witness for C3 at a concrete receipt relation that already holds the
pair ("m1", "alice"). -/
theorem c3_witness :
    markMessagesAsSeen (some "alice") ["m1"]
        [{ message_id := "m1", user_id := "alice", seen_at := 3 }] 9 =
      { db := [{ message_id := "m1", user_id := "alice", seen_at := 3 }],
        errorSurfacedToUser := false, errorLogged := false } :=
  c3_duplicate_receipt_insert_is_idempotent "alice" "m1" ["m1"]
    [{ message_id := "m1", user_id := "alice", seen_at := 3 }] 9
    (List.mem_singleton.mpr rfl) (by decide)

/-- Alice's own message with a present but empty receipt list. -/
def c4OwnMessage : SupabaseMessage :=
  { id := "m1", conversation_id := "conv1", sender_id := "alice", content := "hi",
    created_at := 1, profiles := some aliceProfile, message_receipts := some [] }

/-- Participant list where the current user is the only participant. -/
def c4SoloParticipants : List ParticipantEntry :=
  [{ user_id := "alice", profiles := aliceProfile }]

/-- C4 counterexample.  With no participants other than the sender, the
claim's characterization is vacuously true, but `isMessageSeenByAllOthers`
explicitly returns false when the set of other participants is empty. -/
theorem c4_counterexample_empty_other_participants :
    isMessageSeenByAllOthers "alice" c4SoloParticipants c4OwnMessage = false ∧
    seenByAllClaim "alice" c4SoloParticipants c4OwnMessage = true := by
  refine ⟨by decide, by decide⟩

/-- C4 as amended.  "Seen by all" is true iff the message is authored by
the current user, its receipts field is present, the set of participants
other than the current user is non-empty, and every such participant has a
receipt on the message; the empty-other-participants boundary case yields
false, not vacuous truth. -/
theorem c4_seen_by_all_characterization (currentUserId : String)
    (conversation_participants : List ParticipantEntry) (msg : SupabaseMessage) :
    isMessageSeenByAllOthers currentUserId conversation_participants msg = true ↔
      (msg.sender_id = currentUserId ∧ msg.message_receipts.isSome = true ∧
       conversation_participants.filter (fun p => p.user_id != currentUserId) ≠ [] ∧
       ∀ p ∈ conversation_participants.filter (fun p => p.user_id != currentUserId),
         ∃ r ∈ msg.message_receipts.getD [], r.user_id = p.user_id) := by
  unfold isMessageSeenByAllOthers
  by_cases hs : msg.sender_id = currentUserId
  · cases hrec : msg.message_receipts with
    | none => simp [hs, hrec]
    | some receipts =>
      cases hoth : conversation_participants.filter (fun p => p.user_id != currentUserId) with
      | nil => simp [hs, hrec, hoth]
      | cons q qs =>
        simp [hs, hrec, hoth, List.all_eq_true, List.any_eq_true]
  · simp [hs]

/-- C6.  `startCall` on a conversation whose pre-check finds a call in
status `ringing` or `active` is rejected with a user-visible error and no
second row; and any row the call inserts exists only when the pre-check
found no non-terminal call, has status `ringing`, and carries the freshly
minted conferencing URL. -/
theorem c6_startCall_guard (uid : String) (db : List CallRow) (conversationId : String)
    (now : Nat) (newId : String) (checkSucceeds insertSucceeds : Bool) :
    (nonTerminalCallExists db conversationId = true →
      startCall (some uid) db conversationId now newId true insertSucceeds =
        { db := db,
          errorSurfaced := some "A call is already active or ringing in this conversation.",
          activeCall := none }) ∧
    (∀ c, c ∈ (startCall (some uid) db conversationId now newId
          checkSucceeds insertSucceeds).db → c ∉ db →
        nonTerminalCallExists db conversationId = false ∧
        c.status = CallStatus.ringing ∧
        c.call_url = some (mintCallUrl conversationId now)) := by
  constructor
  · intro hbusy
    simp [startCall, hbusy]
  · intro c hc hnotin
    cases checkSucceeds with
    | false => exact absurd hc hnotin
    | true =>
      cases hbusy : nonTerminalCallExists db conversationId with
      | true =>
        rw [startCall] at hc
        simp [hbusy] at hc
        exact absurd hc hnotin
      | false =>
        cases insertSucceeds with
        | false =>
          rw [startCall] at hc
          simp [hbusy] at hc
          exact absurd hc hnotin
        | true =>
          rw [startCall] at hc
          simp [hbusy] at hc
          rcases hc with hc | hc
          · exact absurd hc hnotin
          · subst hc
            exact ⟨rfl, rfl, rfl⟩

/-- A call already ringing in conversation conv1. -/
def c6RingingCall : CallRow :=
  { id := "call1", caller_id := "bob", conversation_id := "conv1",
    status := CallStatus.ringing, call_url := some "url", created_at := 3 }

/-- Witness for C6: starting a call while `c6RingingCall` is ringing in
the same conversation is refused and inserts nothing. -/
theorem c6_startCall_guard_witness :
    startCall (some "alice") [c6RingingCall] "conv1" 7 "call2" true true =
      { db := [c6RingingCall],
        errorSurfaced := some "A call is already active or ringing in this conversation.",
        activeCall := none } :=
  (c6_startCall_guard "alice" [c6RingingCall] "conv1" 7 "call2" true true).1 (by decide)


/-- C10.  Sending with content that trims to the empty string, or with no
selected conversation or no authenticated user, issues no insert to the
`messages` relation and leaves it unchanged (the local message list only
changes through insert notifications, so it is unchanged too); and the
`ChatMessageArea` guard forwards nothing to `onSendMessage` for blank
content. -/
theorem c10_blank_or_unauthenticated_send_is_noop
    (user selectedConversationId : Option String) (text : String)
    (rel : List SupabaseMessage) (newId : String) (now : Nat)
    (h : text.trim = "" ∨ user = none ∨ selectedConversationId = none) :
    handleSendMessage user selectedConversationId text rel newId now =
      { messagesRelation := rel, insertIssued := false } ∧
    (text.trim = "" → handleSend text = none) := by
  constructor
  · cases user with
    | none => rfl
    | some uid =>
      cases selectedConversationId with
      | none => rfl
      | some cid =>
        have ht : text.trim = "" := by
          rcases h with h | h | h
          · exact h
          · exact absurd h (by simp)
          · exact absurd h (by simp)
        rw [handleSendMessage, ht]
        rfl
  · intro ht
    rw [handleSend, ht]
    rfl

/-- Witness for C10: with no authenticated user the send is a no-op. -/
theorem c10_blank_send_witness :
    handleSendMessage none (some "conv1") "hi" [] "m9" 5 =
      { messagesRelation := [], insertIssued := false } ∧
    ("hi".trim = "" → handleSend "hi" = none) :=
  c10_blank_or_unauthenticated_send_is_noop none (some "conv1") "hi" [] "m9" 5
    (Or.inr (Or.inl rfl))

/-- C9.  `unseenMessageIds` contains exactly the ids of loaded messages
whose sender differs from the current user and which carry no receipt by
the current user, and the receipt write after `fetchMessages` is a single
batch of `(message_id, user_id)` rows for exactly that set — issued not at
all when the set is empty. -/
theorem c9_receipts_written_for_exactly_unseen (currentUserId : String)
    (fetchedMessages : List SupabaseMessage) (now : Nat) :
    (∀ i, i ∈ unseenMessageIds currentUserId fetchedMessages ↔
        ∃ msg ∈ fetchedMessages, msg.id = i ∧ msg.sender_id ≠ currentUserId ∧
          ∀ r ∈ msg.message_receipts.getD [], r.user_id ≠ currentUserId) ∧
    receiptInsertBatch currentUserId fetchedMessages now =
      (if unseenMessageIds currentUserId fetchedMessages = [] then none
       else some ((unseenMessageIds currentUserId fetchedMessages).map (fun messageId =>
         { message_id := messageId, user_id := currentUserId, seen_at := now }))) := by
  constructor
  · intro i
    simp only [unseenMessageIds, List.mem_map, List.mem_filter, Bool.and_eq_true,
      bne_iff_ne, ne_eq, Bool.not_eq_true', List.any_eq_false, beq_iff_eq]
    constructor
    · rintro ⟨msg, ⟨hmem, hsender, hrec⟩, rfl⟩
      exact ⟨msg, hmem, rfl, hsender, hrec⟩
    · rintro ⟨msg, hmem, rfl, hsender, hrec⟩
      exact ⟨msg, ⟨hmem, hsender, hrec⟩, rfl⟩
  · rw [receiptInsertBatch]
    cases h : unseenMessageIds currentUserId fetchedMessages with
    | nil => simp
    | cons a l => simp

/-- C8.  After a refresh or a deletion, the selected conversation id is
never dangling: a refresh falls back to the head of the new list (or to
none when it is empty) whenever the previous selection is absent, and a
deletion removes the row and falls back likewise when it was selected. -/
theorem c8_selection_never_dangling
    (processed prev : List SupabaseConversation) (selected : Option String)
    (deletedId : String)
    (hsel : ∀ s, selected = some s → prev.any (fun c => c.id == s) = true) :
    (∀ x, selectionAfterRefresh processed selected = some x →
        processed.any (fun c => c.id == x) = true) ∧
    (selected = none ∨ processed.any (fun c => some c.id == selected) = false →
        selectionAfterRefresh processed selected = processed.head?.map (fun c => c.id)) ∧
    (processed = [] → selectionAfterRefresh processed selected = none) ∧
    (∀ x, (handleConversationDeleted prev selected deletedId).selectedConversationId =
          some x →
        (handleConversationDeleted prev selected deletedId).conversations.any
          (fun c => c.id == x) = true) := by
  refine ⟨?_, ?_, ?_, ?_⟩
  · intro x hx
    cases processed with
    | nil => simp [selectionAfterRefresh] at hx
    | cons c cs =>
      cases selected with
      | none =>
        simp [selectionAfterRefresh] at hx
        subst hx
        simp
      | some s =>
        simp [selectionAfterRefresh] at hx
        split at hx
        · have : c.id = x := by simpa using hx
          subst this
          simp
        · next hcond =>
          have : s = x := by simpa using hx
          subst this
          rcases not_and_or.mp hcond with hc | hfa
          · have : c.id = s := not_not.mp hc
            simp [List.any_eq_true]
            exact Or.inl this
          · simp at hfa
            rcases hfa with ⟨d, hd, hds⟩
            simp [List.any_eq_true]
            exact Or.inr ⟨d, hd, hds⟩
  · intro hcase
    cases processed with
    | nil => simp [selectionAfterRefresh]
    | cons c cs =>
      rcases hcase with h | h
      · subst h
        simp [selectionAfterRefresh]
      · simp [selectionAfterRefresh, h]
  · intro hnil
    subst hnil
    simp [selectionAfterRefresh]
  · intro x hx
    rw [handleConversationDeleted] at hx ⊢
    by_cases hdel : (selected == some deletedId) = true
    · simp only [hdel, if_true] at hx ⊢
      cases hupd : prev.filter (fun conv => conv.id != deletedId) with
      | nil => simp [hupd] at hx
      | cons c cs =>
        simp only [hupd] at hx ⊢
        have hx2 : c.id = x := by simpa using hx
        subst hx2
        simp
    · simp only [Bool.not_eq_true] at hdel
      simp only [hdel, Bool.false_eq_true, if_false] at hx ⊢
      have hprev := hsel x hx
      rcases List.any_eq_true.mp hprev with ⟨d, hd, hdx⟩
      refine List.any_eq_true.mpr ⟨d, List.mem_filter.mpr ⟨hd, ?_⟩, hdx⟩
      have hdx2 : d.id = x := by simpa using hdx
      have hxne : x ≠ deletedId := by
        intro hcontra
        rw [hx, hcontra] at hdel
        simp at hdel
      simp [hdx2, hxne]

/-- Conversation whose id survives the deletion of conv2. -/
def c8Survivor : SupabaseConversation :=
  { id := "conv1", name := none, created_at := 1, conversation_participants := [],
    latest_message_content := none, latest_message_sender_id := none,
    latest_message_created_at := none }

/-- Witness for C8: the selection "conv1" is known to be in the previous
list, refreshes keep the selection non-dangling, and deleting the
unselected conversation conv2 keeps the selection. -/
theorem c8_selection_never_dangling_witness :
    (∀ x, selectionAfterRefresh [c8Survivor] (some "conv1") = some x →
        [c8Survivor].any (fun c => c.id == x) = true) ∧
    (some "conv1" = none ∨ [c8Survivor].any (fun c => some c.id == some "conv1") = false →
        selectionAfterRefresh [c8Survivor] (some "conv1") =
          [c8Survivor].head?.map (fun c => c.id)) ∧
    ([c8Survivor] = ([] : List SupabaseConversation) →
        selectionAfterRefresh [c8Survivor] (some "conv1") = none) ∧
    (∀ x, (handleConversationDeleted [c8Survivor] (some "conv1") "conv2").selectedConversationId =
          some x →
        (handleConversationDeleted [c8Survivor] (some "conv1") "conv2").conversations.any
          (fun c => c.id == x) = true) :=
  c8_selection_never_dangling [c8Survivor] [c8Survivor] (some "conv1") "conv2"
    (by intro s hs; cases hs; decide)

/-- Transfer a `Pairwise` relation along a pointwise implication that may
use membership of both elements. -/
theorem pairwise_imp_of_mem_helper {α : Type} {r s : α → α → Prop} :
    ∀ {l : List α}, (∀ a, a ∈ l → ∀ b, b ∈ l → r a b → s a b) →
      l.Pairwise r → l.Pairwise s := by
  intro l
  induction l with
  | nil => intro _ _; exact List.Pairwise.nil
  | cons a t ih =>
    intro h hp
    cases hp with
    | cons ha ht =>
      refine List.Pairwise.cons ?_ (ih ?_ ht)
      · intro b hb
        exact h a (List.mem_cons_self a t) b (List.mem_cons_of_mem a hb) (ha b hb)
      · intro x hx y hy
        exact h x (List.mem_cons_of_mem a hx) y (List.mem_cons_of_mem a hy)

/-- Any latest-message timestamp carried by a merged conversation comes
from some row of the summary view. -/
theorem merged_latest_from_rows {raw : List RawConversationRow}
    {rows : List LatestMessageRow} {b : SupabaseConversation}
    (hb : b ∈ raw.map (mergeLatestMessage rows)) {t : Nat}
    (ht : b.latest_message_created_at = some t) :
    ∃ r ∈ rows, r.latest_message_created_at = some t := by
  rcases List.mem_map.mp hb with ⟨conv, -, rfl⟩
  rw [mergeLatestMessage] at ht
  simp only at ht
  rcases Option.bind_eq_some.mp ht with ⟨r, hr, hrt⟩
  exact ⟨r, List.mem_of_find?_eq_some hr, hrt⟩

/-- C2.  The conversation list produced by `fetchConversations` is a
permutation of the merged conversations, sorted descending by
latest-message timestamp with epoch zero for conversations without
messages; hence, whenever every latest-message timestamp in the summary
view is positive (every real timestamp is), a conversation with no latest
message sorts after every conversation that has one. -/
theorem c2_loadConversations_sorted_desc (raw : List RawConversationRow)
    (rows : List LatestMessageRow)
    (hpos : ∀ r ∈ rows, ∀ t, r.latest_message_created_at = some t → 0 < t) :
    (fetchConversationsResult raw rows).Perm (raw.map (mergeLatestMessage rows)) ∧
    (fetchConversationsResult raw rows).Pairwise
      (fun a b => conversationSortKey b ≤ conversationSortKey a) ∧
    (fetchConversationsResult raw rows).Pairwise
      (fun a b => a.latest_message_created_at = none →
        b.latest_message_created_at = none) := by
  have hperm : (fetchConversationsResult raw rows).Perm
      (raw.map (mergeLatestMessage rows)) :=
    List.perm_insertionSort _ _
  haveI htotal : IsTotal SupabaseConversation
      (fun a b => conversationSortKey b ≤ conversationSortKey a) :=
    ⟨fun a b => (Nat.le_total (conversationSortKey b) (conversationSortKey a))⟩
  haveI htrans : IsTrans SupabaseConversation
      (fun a b => conversationSortKey b ≤ conversationSortKey a) :=
    ⟨fun _ _ _ hab hbc => Nat.le_trans hbc hab⟩
  have hsorted : (fetchConversationsResult raw rows).Pairwise
      (fun a b => conversationSortKey b ≤ conversationSortKey a) :=
    List.sorted_insertionSort _ _
  refine ⟨hperm, hsorted, ?_⟩
  refine pairwise_imp_of_mem_helper (fun a _ b hb hr hnone => ?_) hsorted
  cases hbl : b.latest_message_created_at with
  | none => rfl
  | some t =>
    have hb2 : b ∈ raw.map (mergeLatestMessage rows) := hperm.subset hb
    rcases merged_latest_from_rows hb2 hbl with ⟨r, hrmem, hrt⟩
    have htpos := hpos r hrmem t hrt
    have hkb : conversationSortKey b = t := by
      simp [conversationSortKey, hbl]
    have hka : conversationSortKey a = 0 := by
      simp [conversationSortKey, hnone]
    rw [hka, hkb] at hr
    omega

/-- Raw conversation with no latest message. -/
def c2RawNoMessage : RawConversationRow :=
  { id := "convA", name := none, created_at := 1, conversation_participants := [] }

/-- Raw conversation whose latest message is at t = 5. -/
def c2RawWithMessage : RawConversationRow :=
  { id := "convB", name := none, created_at := 2, conversation_participants := [] }

/-- Summary row giving convB its latest message at t = 5. -/
def c2LatestRow : LatestMessageRow :=
  { conversation_id := "convB", latest_message_content := some "hi",
    latest_message_sender_id := some "bob", latest_message_created_at := some 5 }

/-- Witness for C2 at a concrete pair of conversations, one without
messages, discharging the positive-timestamp hypothesis. -/
theorem c2_loadConversations_sorted_desc_witness :
    (fetchConversationsResult [c2RawNoMessage, c2RawWithMessage] [c2LatestRow]).Perm
      ([c2RawNoMessage, c2RawWithMessage].map (mergeLatestMessage [c2LatestRow])) ∧
    (fetchConversationsResult [c2RawNoMessage, c2RawWithMessage] [c2LatestRow]).Pairwise
      (fun a b => conversationSortKey b ≤ conversationSortKey a) ∧
    (fetchConversationsResult [c2RawNoMessage, c2RawWithMessage] [c2LatestRow]).Pairwise
      (fun a b => a.latest_message_created_at = none →
        b.latest_message_created_at = none) :=
  c2_loadConversations_sorted_desc [c2RawNoMessage, c2RawWithMessage] [c2LatestRow]
    (by
      intro r hr t ht
      have hreq : r = c2LatestRow := by simpa using hr
      subst hreq
      have ht5 : t = 5 := by
        have := ht
        simp [c2LatestRow] at this
        omega
      omega)
